import Mathlib

/-!
Verification of the extraction-and-normalization pipeline of the Valdosta
calendar scraper (backend/generic_scraper.py, backend/main.py).

Strings are embedded as `List Char`; Python string helpers (`lower`,
`strip`, `split`, slicing, `in`, `replace`) are modelled character by
character with Python's semantics.  Dates are plain year/month/day records
compared lexicographically, as Python `datetime.date` comparison does.
-/

namespace Valdosta

set_option maxRecDepth 16384

/-- ASCII lower-casing of one character, as Python `str.lower` acts on the
ASCII fragment relevant to this code base. -/
def lowerChar (c : Char) : Char :=
  if 'A' ≤ c ∧ c ≤ 'Z' then Char.ofNat (c.toNat + 32) else c

/-- Python `str.lower` on ASCII text. -/
def lowerStr (s : List Char) : List Char := s.map lowerChar

/-- Python's default whitespace set for `str.strip` / `str.split`. -/
def isPyWs (c : Char) : Bool :=
  c == ' ' || c == '\t' || c == '\n' || c == '\r' || c == '\x0b' || c == '\x0c'

/-- Python `str.strip()` with no arguments. -/
def pyStrip (s : List Char) : List Char :=
  ((s.dropWhile isPyWs).reverse.dropWhile isPyWs).reverse

/-- Python `str.split()` with no arguments: whitespace runs separate words,
empty words are dropped. -/
def pyWords (s : List Char) : List (List Char) :=
  (s.splitOnP isPyWs).filter (fun w => !w.isEmpty)

/-- Python `' '.join(s.split())`: collapse internal whitespace, trim ends. -/
def collapseWs (s : List Char) : List Char :=
  List.intercalate [' '] (pyWords s)

/-- Python `sub in s` (substring containment). -/
def subIn (pat s : List Char) : Bool :=
  s.tails.any (fun t => pat.isPrefixOf t)

/-- One calendar date, as Python `datetime.date`. -/
structure Date where
  year : Nat
  month : Nat
  day : Nat
deriving DecidableEq, Repr

/-- Python `date` comparison `a <= b` (lexicographic). -/
def dateLe (a b : Date) : Bool :=
  Nat.blt a.year b.year ||
    (a.year == b.year &&
      (Nat.blt a.month b.month || (a.month == b.month && Nat.ble a.day b.day)))

/-- One calendar entry as built by the scrapers: a Python dict with keys
`title`, `url`, `description`, `start`, `allDay` and (on the two-stage path)
`recurring_pattern`; absent keys are read back with default `''`, so the
field is carried everywhere with `[]` for "absent". -/
structure Entry where
  title : List Char
  url : List Char
  description : List Char
  start : List Char
  allDay : Bool
  recurring_pattern : List Char
deriving DecidableEq, Repr

/-- Index of the last character of `l` satisfying `q`, or `none`: the value
of Python's `max` over the corresponding `rfind` calls (with -1 for "no
occurrence" mapped to `none`). -/
def rfindLast (q : Char → Bool) : List Char → Option Nat
  | [] => none
  | c :: t =>
    match rfindLast q t with
    | some i => some (i + 1)
    | none => if q c then some 0 else none

/-- The sentence-boundary characters of `_truncate_description`. -/
def isSentencePunct (c : Char) : Bool := c == '.' || c == '!' || c == '?'

/-- The `else` arm of `_truncate_description`: cut at the last space of the
150-char prefix when one sits past index 0, and append an ellipsis. -/
def truncAtSpace (truncated : List Char) : List Char :=
  match rfindLast (fun c => c == ' ') truncated with
  | some j =>
    if 0 < j then pyStrip (truncated.take j) ++ ("...").toList
    else truncated ++ ("...").toList
  | none => truncated ++ ("...").toList

/-- `_truncate_description` (generic_scraper.py) at its default budget
`max_length = 150`.  Python's `if not desc or len(desc) <= max_length`
collapses to the length test (an empty string has length 0).  The source's
`max(rfind returns)` is the index of the last `.`/`!`/`?`, or -1; its
comparison `last_period > max_length * 0.6` is against the float
`150 * 0.6 == 90.0`, so it holds exactly for integer indices above 90. -/
def truncateDescription (desc : List Char) : List Char :=
  if desc.length ≤ 150 then desc
  else
    match rfindLast isSentencePunct (desc.take 150) with
    | some p =>
      if 90 < p then pyStrip (desc.take (p + 1))
      else truncAtSpace (desc.take 150)
    | none => truncAtSpace (desc.take 150)

/-- Concrete input for C6: 151 characters with the only sentence
punctuation, a period, at index 100. -/
def c6ExampleA : List Char :=
  List.replicate 100 'a' ++ '.' :: List.replicate 50 'b'

/-- Concrete input for C6: 152 characters with no sentence punctuation; the
last space inside the first 150 characters sits at index 111. -/
def c6ExampleB : List Char :=
  List.replicate 30 'a' ++ ' ' :: List.replicate 80 'b' ++
    ' ' :: List.replicate 40 'c'

/-! ### Year inference on the events path (C4)

`scrape_with_ai` (generic_scraper.py, events branch): after `dateparser`
yields a parsed date, `months_diff = (current.year - parsed.year) * 12 +
(current.month - parsed.month)`; `months_diff > 2` bumps the parsed year by
one (`parsed_date.replace(year=parsed_date.year + 1)`), the two `elif` arms
(`months_diff < 0`, and `months_diff <= 2 and parsed < current`) both
`pass`, and falling through every arm also keeps the parsed date. -/

/-- Python's Gregorian leap-year rule (`calendar.isleap`, as used by
`datetime`'s day-range validation). -/
def isLeap (y : Nat) : Bool :=
  (y % 4 == 0 && y % 100 != 0) || y % 400 == 0

/-- Days in a month, as `datetime` validates them. -/
def daysInMonth (y m : Nat) : Nat :=
  if m == 2 then (if isLeap y then 29 else 28)
  else if m == 4 || m == 6 || m == 9 || m == 11 then 30
  else 31

def monthsDiff (current parsed : Date) : Int :=
  ((current.year : Int) - parsed.year) * 12 +
    ((current.month : Int) - parsed.month)

/-- Python `date` comparison `a < b` (lexicographic). -/
def dateLt (a b : Date) : Bool :=
  Nat.blt a.year b.year ||
    (a.year == b.year &&
      (Nat.blt a.month b.month || (a.month == b.month && Nat.blt a.day b.day)))

/-- The smart year handling of `scrape_with_ai`, branch for branch.
`parsed_date.replace(year=parsed_date.year + 1)` validates the day against
the bumped year's month and raises `ValueError` when it does not exist
there (February 29 bumped into a non-leap year); the enclosing bare
`except:` then replaces the whole result with today's date — the run date
`current`. -/
def smartYearAdjust (current parsed : Date) : Date :=
  if monthsDiff current parsed > 2 then
    if parsed.day ≤ daysInMonth (parsed.year + 1) parsed.month then
      { parsed with year := parsed.year + 1 }
    else current
  else if monthsDiff current parsed < 0 then
    parsed
  else if monthsDiff current parsed ≤ 2 ∧ dateLt parsed current = true then
    parsed
  else
    parsed

/-! ### The three first-seen-wins deduplication passes

`backend/main.py` `scrape_site` (`seen_events` loop), `generic_scraper.py`
`_post_process_ai_results` step 5 and `_scrape_twostage`'s final
deduplication all follow the same shape: walk the list, keep an entry iff
its key has not been seen, remember the key. -/

def dedupPassAux {K : Type} [DecidableEq K] (key : Entry → K) :
    List K → List Entry → List Entry
  | _, [] => []
  | seen, e :: t =>
    if key e ∈ seen then dedupPassAux key seen t
    else e :: dedupPassAux key (key e :: seen) t

def dedupPass {K : Type} [DecidableEq K] (key : Entry → K) (l : List Entry) :
    List Entry :=
  dedupPassAux key [] l

/-- Key of the per-source dedup in `scrape_site` (main.py):
`(title.strip().lower(), start)`. -/
def scrapeSiteDedupKey (e : Entry) : List Char × List Char :=
  (lowerStr (pyStrip e.title), e.start)

/-- The per-source `(title, start)` dedup of `scrape_site`. -/
def scrapeSiteDedup : List Entry → List Entry :=
  dedupPass scrapeSiteDedupKey

/-- Key of `_post_process_ai_results` step 5:
`f"{start.split('T')[0]}_{' '.join(title.lower().split())[:30]}"`. -/
def samePageDedupKey (e : Entry) : List Char :=
  (e.start.takeWhile (fun c => c != 'T')) ++
    '_' :: ((collapseWs (lowerStr e.title)).take 30)

/-- The same-page date + 30-char-title dedup of `_post_process_ai_results`. -/
def samePageDedup : List Entry → List Entry :=
  dedupPass samePageDedupKey

/-- Key of the final dedup in `_scrape_twostage`:
`f"{url}_{start.split('T')[0]}_{title.lower()[:50]}"`. -/
def twoStageDedupKey (e : Entry) : List Char :=
  e.url ++ '_' :: (e.start.takeWhile (fun c => c != 'T')) ++
    '_' :: ((lowerStr e.title).take 50)

/-- The final url + date + 50-char-title dedup of `_scrape_twostage`. -/
def twoStageDedup : List Entry → List Entry :=
  dedupPass twoStageDedupKey

/-! ### Decimal formatting and ISO parsing -/

def isDigitC (c : Char) : Bool := Nat.ble 48 c.toNat && Nat.ble c.toNat 57

def digitVal (c : Char) : Nat := c.toNat - 48

/-- Python `f"{n:02d}"` on the pipeline's domain `n < 1000` (months, days
and converted hours, which stay below 112). -/
def fmt02 (n : Nat) : List Char :=
  if n < 10 then ['0', Char.ofNat (48 + n)]
  else if n < 100 then [Char.ofNat (48 + n / 10), Char.ofNat (48 + n % 10)]
  else [Char.ofNat (48 + n / 100 % 10), Char.ofNat (48 + n / 10 % 10),
    Char.ofNat (48 + n % 10)]

/-- `strftime("%Y")` on the years below 10000 this pipeline handles,
zero-padded to four digits. -/
def fmt04 (n : Nat) : List Char :=
  [Char.ofNat (48 + n / 1000 % 10), Char.ofNat (48 + n / 100 % 10),
   Char.ofNat (48 + n / 10 % 10), Char.ofNat (48 + n % 10)]

/-- `strftime("%Y-%m-%d")`. -/
def fmtDate (d : Date) : List Char :=
  fmt04 d.year ++ '-' :: fmt02 d.month ++ '-' :: fmt02 d.day

/-- `datetime.fromisoformat` on an exact `YYYY-MM-DD` string, with Python's
range validation. -/
def parseIsoDate10 : List Char → Option Date
  | [y1, y2, y3, y4, s1, m1, m2, s2, d1, d2] =>
    if isDigitC y1 && isDigitC y2 && isDigitC y3 && isDigitC y4 &&
        s1 == '-' && isDigitC m1 && isDigitC m2 && s2 == '-' &&
        isDigitC d1 && isDigitC d2 then
      let y := ((digitVal y1 * 10 + digitVal y2) * 10 + digitVal y3) * 10 + digitVal y4
      let m := digitVal m1 * 10 + digitVal m2
      let d := digitVal d1 * 10 + digitVal d2
      if 1 ≤ y ∧ 1 ≤ m ∧ m ≤ 12 ∧ 1 ≤ d ∧ d ≤ daysInMonth y m then
        some ⟨y, m, d⟩
      else none
    else none
  | _ => none

/-- The optional time tail `datetime.fromisoformat` accepts after the date
and a one-character separator: `HH`, `HH:MM` or `HH:MM:SS`. -/
def validTimePart : List Char → Bool
  | [h1, h2] =>
    isDigitC h1 && isDigitC h2 && Nat.blt (digitVal h1 * 10 + digitVal h2) 24
  | [h1, h2, c1, m1, m2] =>
    isDigitC h1 && isDigitC h2 && Nat.blt (digitVal h1 * 10 + digitVal h2) 24 &&
      c1 == ':' && isDigitC m1 && isDigitC m2 &&
      Nat.blt (digitVal m1 * 10 + digitVal m2) 60
  | [h1, h2, c1, m1, m2, c2, s1, s2] =>
    isDigitC h1 && isDigitC h2 && Nat.blt (digitVal h1 * 10 + digitVal h2) 24 &&
      c1 == ':' && isDigitC m1 && isDigitC m2 &&
      Nat.blt (digitVal m1 * 10 + digitVal m2) 60 &&
      c2 == ':' && isDigitC s1 && isDigitC s2 &&
      Nat.blt (digitVal s1 * 10 + digitVal s2) 60
  | _ => false

/-- `datetime.fromisoformat(s).date()`: a bare date, or a date followed by
any separator character and a valid clock time — so a full timestamp such
as `2026-06-15T18:00:00` parses, and only its date part is returned. -/
def pyFromIsoDate (s : List Char) : Option Date :=
  match parseIsoDate10 (s.take 10) with
  | none => none
  | some d =>
    match s.drop 10 with
    | [] => some d
    | _sep :: t => if validTimePart t then some d else none

/-- `re.match(r'^\d{2}:\d{2}$', s)` of the time-format validations. -/
def isTimeHHMM : List Char → Bool
  | [h1, h2, c, m1, m2] =>
    isDigitC h1 && isDigitC h2 && c == ':' && isDigitC m1 && isDigitC m2
  | _ => false

/-- `start` strings the pipeline contracts to emit:
`YYYY-MM-DDTHH:MM:SS`, no timezone offset. -/
def isWellFormedStart : List Char → Bool
  | [y1, y2, y3, y4, s1, m1, m2, s2, d1, d2, t, h1, h2, c1, mi1, mi2, c2, se1, se2] =>
    isDigitC y1 && isDigitC y2 && isDigitC y3 && isDigitC y4 &&
      s1 == '-' && isDigitC m1 && isDigitC m2 && s2 == '-' &&
      isDigitC d1 && isDigitC d2 && t == 'T' &&
      isDigitC h1 && isDigitC h2 && c1 == ':' &&
      isDigitC mi1 && isDigitC mi2 && c2 == ':' &&
      isDigitC se1 && isDigitC se2
  | _ => false

/-! ### Day arithmetic for the recurring expander -/

/-- Days since 0000-03-01 of the proleptic Gregorian calendar (the standard
civil-from-days construction), total on the post-1582 dates this pipeline
handles. -/
def daysFromCivil (dt : Date) : Nat :=
  let y := if dt.month ≤ 2 then dt.year - 1 else dt.year
  let era := y / 400
  let yoe := y % 400
  let mp := if 2 < dt.month then dt.month - 3 else dt.month + 9
  let doy := (153 * mp + 2) / 5 + dt.day - 1
  let doe := yoe * 365 + yoe / 4 - yoe / 100 + doy
  era * 146097 + doe

/-- Python `date.weekday()`: Monday is 0.  0000-03-01 of the proleptic
Gregorian calendar is a Wednesday (weekday 2). -/
def pyWeekday (dt : Date) : Nat := (daysFromCivil dt + 2) % 7

/-- Year and month of `current + relativedelta(months=i)` (only those two
components of the result are ever read). -/
def monthAdd (current : Date) (i : Nat) : Nat × Nat :=
  let t := current.year * 12 + (current.month - 1) + i
  (t / 12, t % 12 + 1)

/-- The date `_expand_recurring_events` computes for the n-th weekday-`w`
occurrence of a month: `datetime(year, month, 1) + timedelta(days =
(w - first_day.weekday()) % 7 + 7*(n-1))`.  With n ≤ 3 the day stays at
most 21, so no month rollover can occur and the sum is the day number. -/
def nthWeekdayDate (year month w n : Nat) : Date :=
  let wd := pyWeekday ⟨year, month, 1⟩
  let k := (((w : Int) - wd) % 7).toNat
  ⟨year, month, 1 + k + 7 * (n - 1)⟩

/-! ### The recurring-pattern expander (`_expand_recurring_events`) -/

/-- Python `s.split(sep)` for a one-character separator. -/
def splitOnC (sep : Char) : List Char → List (List Char)
  | [] => [[]]
  | c :: t =>
    match splitOnC sep t with
    | [] => [[]]
    | h :: r => if c == sep then [] :: h :: r else (c :: h) :: r

/-- `original_start.split('T')[1]` when `'T' in original_start`, else the
default `'19:00:00'`. -/
def seedTime (start : List Char) : List Char :=
  if subIn ['T'] start then (splitOnC 'T' start).getD 1 []
  else ("19:00:00").toList

/-- `f"{title.lower()} {(recurring_pattern or '').lower()}"`. -/
def searchText (e : Entry) : List Char :=
  lowerStr e.title ++ ' ' :: lowerStr e.recurring_pattern

def matchesFirstFriday (s : List Char) : Bool :=
  subIn (("first friday").toList) s || subIn (("1st friday").toList) s

def matchesSecondSaturday (s : List Char) : Bool :=
  subIn (("second saturday").toList) s || subIn (("2nd saturday").toList) s

def matchesThirdTuesday (s : List Char) : Bool :=
  subIn (("third tuesday").toList) s || subIn (("3rd tuesday").toList) s

/-- One pattern's expansion loop, `for i in range(6)`: compute the n-th
weekday-`w` date of the i-th month from the current one and emit a copy of
the seed — `start` overwritten, all other fields kept — exactly when that
date is on or after the current date. -/
def expandPattern (current : Date) (e : Entry) (w n : Nat) : List Entry :=
  (List.range 6).filterMap (fun i =>
    let ym := monthAdd current i
    let d := nthWeekdayDate ym.1 ym.2 w n
    if dateLe current d then
      some { e with start := fmtDate d ++ 'T' :: seedTime e.start }
    else none)

/-- `_expand_recurring_events` on one entry: the `elif` chain tries First
Friday (weekday 4, n = 1), then Second Saturday (weekday 5, n = 2), then
Third Tuesday (weekday 1, n = 3); anything else passes through. -/
def expandOne (current : Date) (e : Entry) : List Entry :=
  if matchesFirstFriday (searchText e) then expandPattern current e 4 1
  else if matchesSecondSaturday (searchText e) then expandPattern current e 5 2
  else if matchesThirdTuesday (searchText e) then expandPattern current e 1 3
  else [e]

/-- `_expand_recurring_events`: every entry is expanded in place, in input
order. -/
def expandRecurringEvents (current : Date) (l : List Entry) : List Entry :=
  l.flatMap (expandOne current)

/-- `_is_supported_recurring_pattern`: empty pattern is unsupported, else
any of the six phrases may occur inside the lower-cased pattern. -/
def supportedPatterns : List (List Char) :=
  [("first friday").toList, ("1st friday").toList,
   ("second saturday").toList, ("2nd saturday").toList,
   ("third tuesday").toList, ("3rd tuesday").toList]

def isSupportedRecurringPattern (p : List Char) : Bool :=
  if p.isEmpty then false
  else supportedPatterns.any (fun q => subIn q (lowerStr p))

/-! ### Title cleanup and post-processing (`_post_process_ai_results`) -/

inductive SourceType where
  | events
  | classes
  | meetings
  | attractions
deriving DecidableEq, Repr

/-- At least one digit: consume `\d+`. -/
def dropDigits1 (s : List Char) : Option (List Char) :=
  if (s.takeWhile isDigitC).isEmpty then none else some (s.dropWhile isDigitC)

/-- Consume `\s+` greedily (Python `\s` is the same six-character class). -/
def dropWsPlus : List Char → Option (List Char)
  | c :: t => if isPyWs c then some (t.dropWhile isPyWs) else none
  | [] => none

/-- Consume `(st|nd|rd|th)` case-insensitively. -/
def dropOrdSuffix : List Char → Option (List Char)
  | a :: b :: t =>
    if (lowerChar a == 's' && lowerChar b == 't') ||
        (lowerChar a == 'n' && lowerChar b == 'd') ||
        (lowerChar a == 'r' && lowerChar b == 'd') ||
        (lowerChar a == 't' && lowerChar b == 'h') then some t
    else none
  | _ => none

/-- Consume a fixed lower-case word case-insensitively. -/
def dropCaseIns (pat s : List Char) : Option (List Char) :=
  if lowerStr (s.take pat.length) = pat then some (s.drop pat.length) else none

/-- `re.sub(r'^\d+(st|nd|rd|th)\s+annual\s+', '', title, flags=re.IGNORECASE)`. -/
def stripOrdinalAnnual (title : List Char) : List Char :=
  (do
    let s1 ← dropDigits1 title
    let s2 ← dropOrdSuffix s1
    let s3 ← dropWsPlus s2
    let s4 ← dropCaseIns (("annual").toList) s3
    dropWsPlus s4).getD title

/-- `re.sub(r'^annual\s+', '', title, flags=re.IGNORECASE)`. -/
def stripAnnualPrefix (title : List Char) : List Char :=
  (do
    let s1 ← dropCaseIns (("annual").toList) title
    dropWsPlus s1).getD title

/-- `re.sub(r'^20\d{2}\s+', '', title)` (no IGNORECASE: digits anyway). -/
def stripYearPrefix (title : List Char) : List Char :=
  match title with
  | c1 :: c2 :: c3 :: c4 :: t =>
    if c1 == '2' && c2 == '0' && isDigitC c3 && isDigitC c4 then
      match dropWsPlus t with
      | some r => r
      | none => title
    else title
  | _ => title

def monthNames : List (List Char) :=
  [("january").toList, ("february").toList, ("march").toList,
   ("april").toList, ("may").toList, ("june").toList, ("july").toList,
   ("august").toList, ("september").toList, ("october").toList,
   ("november").toList, ("december").toList]

/-- `re.sub(r'^(January|...|December)', '', title, flags=re.IGNORECASE)`:
only the month name itself is removed (the names are prefix-free, so the
alternation order is immaterial). -/
def stripMonthPrefix (title : List Char) : List Char :=
  match monthNames.find? (fun m => m.isPrefixOf (lowerStr title)) with
  | some m => title.drop m.length
  | none => title

/-- The four events-path substitutions, in source order. -/
def cleanEventsTitle (title : List Char) : List Char :=
  stripMonthPrefix (stripYearPrefix (stripAnnualPrefix (stripOrdinalAnnual title)))

/-- `re.match(r'^\d+(st|nd|rd|th)\s', title, re.IGNORECASE)`. -/
def matchOrdinalWs (title : List Char) : Bool :=
  (do
    let s1 ← dropDigits1 title
    let s2 ← dropOrdSuffix s1
    match s2 with
    | c :: _ => if isPyWs c then some () else none
    | [] => none).isSome

/-- `re.match(r'^(week|session)\s+\d+', title, re.IGNORECASE)`. -/
def matchWeekSession (title : List Char) : Bool :=
  (do
    let s1 ← (dropCaseIns (("week").toList) title).orElse
      (fun _ => dropCaseIns (("session").toList) title)
    let s2 ← dropWsPlus s1
    if (s2.takeWhile isDigitC).isEmpty then none else some ()).isSome

/-- `re.sub(r'^\d+\s+', '', title)`. -/
def stripBareNumberPrefix (title : List Char) : List Char :=
  (do
    let s1 ← dropDigits1 title
    dropWsPlus s1).getD title

/-- The classes-path cleanup: keep ordinals and `Week N` markers, only
remove bare leading numbers. -/
def cleanClassesTitle (title : List Char) : List Char :=
  if matchOrdinalWs title then title
  else if matchWeekSession title then title
  else stripBareNumberPrefix title

/-- Step 1 cleanup, followed by the unguarded `title.strip()`. -/
def cleanTitleStep (st : SourceType) (title : List Char) : List Char :=
  pyStrip (match st with
    | SourceType.events => cleanEventsTitle title
    | SourceType.classes => cleanClassesTitle title
    | SourceType.meetings => title
    | SourceType.attractions => title)

def junkTitles : List (List Char) :=
  [("log in").toList, ("sign up").toList, ("learn more").toList,
   ("read more").toList, ("click here").toList, ("menu").toList,
   ("search").toList, ("home").toList, ("about").toList,
   ("contact").toList, ("privacy").toList, ("terms").toList,
   ("getting there").toList, ("share").toList, ("save").toList,
   ("map").toList, ("photos").toList]

/-- Steps 1-3 of `_post_process_ai_results`: clean the title, drop junk
titles and titles under three characters, keep everything else with the
cleaned title written back. -/
def postStep1 (st : SourceType) : List Entry → List Entry
  | [] => []
  | e :: t =>
    let title := cleanTitleStep st e.title
    if junkTitles.contains (lowerStr title) then postStep1 st t
    else if title.length < 3 then postStep1 st t
    else { e with title := title } :: postStep1 st t

/-- Step 4 for events/meetings: keep entries dated today or later.  The
date part of `start` is parsed with `datetime.fromisoformat` with no
`try`: one unparseable entry raises out of the whole pass (`none`). -/
def filterFutureDates (current : Date) : List Entry → Option (List Entry)
  | [] => some []
  | e :: t =>
    match parseIsoDate10 (e.start.takeWhile (fun c => c != 'T')) with
    | none => none
    | some d =>
      match filterFutureDates current t with
      | none => none
      | some r => some (if dateLe current d then e :: r else r)

/-- Step 4 for classes: keep entries whose date is at most 30 days in the
past (`(current_date - class_date).days <= 30`). -/
def filterRecentClasses (current : Date) : List Entry → Option (List Entry)
  | [] => some []
  | e :: t =>
    match parseIsoDate10 (e.start.takeWhile (fun c => c != 'T')) with
    | none => none
    | some d =>
      match filterRecentClasses current t with
      | none => none
      | some r =>
        some (if (daysFromCivil current : Int) - daysFromCivil d ≤ 30
          then e :: r else r)

/-- `_post_process_ai_results`: steps 1-3, the category-specific date
filter of step 4, and the events-only same-page dedup of step 5. -/
def postProcessAiResults (st : SourceType) (current : Date)
    (results : List Entry) : Option (List Entry) :=
  let processed := postStep1 st results
  match st with
  | SourceType.events => (filterFutureDates current processed).map samePageDedup
  | SourceType.classes => filterRecentClasses current processed
  | SourceType.meetings => filterFutureDates current processed
  | SourceType.attractions => some processed

/-! ### Stage 2 of the Two-Stage Resolver (`_scrape_twostage`) -/

/-- A Stage-1 item handed to Stage 2: the dict built during listing
extraction (`recurring_pattern` is `''` on the structural path). -/
structure Stage1Item where
  title : List Char
  url : List Char
  date : List Char
  time : List Char
  description : List Char
  recurring_pattern : List Char
deriving DecidableEq, Repr

/-- The parsed Stage-2 response, with the source's `.get` defaults already
applied (`status` defaults to `'unknown'`, the rest to `''` or `[]`). -/
structure Stage2Data where
  status : List Char
  dates : List (List Char)
  time : List Char
  description : List Char
  corrected_title : List Char
  recurring_pattern : List Char
deriving DecidableEq, Repr

/-- How one Stage-2 detail fetch can end, matching the `except` arms of the
source: a parsed JSON payload; `json.JSONDecodeError`;
`requests.exceptions.HTTPError` (after `raise_for_status`);
`requests.exceptions.Timeout`; or any other exception (connection errors
included), caught by the bare `except Exception`. -/
inductive Stage2Outcome where
  | parsed (data : Stage2Data)
  | jsonMalformed
  | httpError
  | timeout
  | otherFailure
deriving DecidableEq, Repr

/-- Python `s.replace(pat, rep)` for the non-empty pattern `p0 :: ps`:
replace every non-overlapping occurrence, left to right. -/
def pyReplace (p0 : Char) (ps rep : List Char) : List Char → List Char
  | [] => []
  | c :: t =>
    if (p0 :: ps).isPrefixOf (c :: t) then
      rep ++ pyReplace p0 ps rep (t.drop ps.length)
    else c :: pyReplace p0 ps rep t
termination_by s => s.length
decreasing_by
  all_goals simp only [List.length_drop, List.length_cons]
  all_goals omega

/-- The Galentine's → Valentine's typo fix applied to titles. -/
def fixTypos (title : List Char) : List Char :=
  if subIn (("Galentine\'s").toList) title ||
      subIn (("galentine\'s").toList) (lowerStr title) then
    pyReplace 'g' (("alentine\'s").toList) (("Valentine\'s").toList)
      (pyReplace 'G' (("alentine\'s").toList) (("Valentine\'s").toList) title)
  else title

/-- The fallback block shared by the `HTTPError` and `Timeout` handlers:
with a non-empty, parseable Stage-1 date that is not past (or a supported
recurring pattern), emit one entry from the listing-page data. -/
def stage2Fallback (current : Date) (item : Stage1Item) : List Entry :=
  let fallback_title := fixTypos item.title
  if item.date.isEmpty then []
  else
    match pyFromIsoDate item.date with
    | none => []
    | some d =>
      if dateLe current d || isSupportedRecurringPattern item.recurring_pattern then
        let ft := if isTimeHHMM item.time then item.time else ("19:00").toList
        [{ title := fallback_title, url := item.url,
           description := truncateDescription item.description,
           start := item.date ++ 'T' :: ft ++ (":00").toList,
           allDay := false, recurring_pattern := item.recurring_pattern }]
      else []

/-- The body run on a successfully parsed Stage-2 response: corrected
title, typo fix, cancelled/postponed drop, the internal-calendar /
empty-`dates` fallback choice, time validation, and one entry per
non-past (or recurring) parseable date. -/
def stage2Parsed (current : Date) (item : Stage1Item) (data : Stage2Data) :
    List Entry :=
  let description0 := truncateDescription data.description
  let title1 := if (pyStrip data.corrected_title).isEmpty then item.title
    else pyStrip data.corrected_title
  let title2 := fixTypos title1
  if data.status = ("cancelled").toList ∨ data.status = ("postponed").toList then []
  else
    let isInternal := subIn (("valdostacity.com/event/").toList) item.url
    let chosen : Option (List (List Char) × List Char × List Char) :=
      if isInternal && !item.date.isEmpty then
        some ([item.date], item.time, description0)
      else if data.dates.isEmpty then
        if item.date.isEmpty then none
        else some ([item.date], item.time,
          if description0.isEmpty then truncateDescription item.description
          else description0)
      else some (data.dates, data.time, description0)
    match chosen with
    | none => []
    | some (dates, time0, description) =>
      let time1 := if isTimeHHMM time0 then time0 else ("19:00").toList
      dates.filterMap (fun date_str =>
        match pyFromIsoDate date_str with
        | none => none
        | some d =>
          if dateLe current d || isSupportedRecurringPattern data.recurring_pattern then
            some { title := title2, url := item.url,
                   description := truncateDescription description,
                   start := date_str ++ 'T' :: time1 ++ (":00").toList,
                   allDay := false, recurring_pattern := data.recurring_pattern }
          else none)

/-- Stage-2 processing of one item with a detail URL, by fetch outcome:
parsed responses run the main body, HTTP errors and timeouts run the
listing-page fallback, and malformed JSON or any other failure `continue`s,
dropping the item. -/
def processStage2Item (current : Date) (item : Stage1Item) :
    Stage2Outcome → List Entry
  | Stage2Outcome.parsed data => stage2Parsed current item data
  | Stage2Outcome.jsonMalformed => []
  | Stage2Outcome.httpError => stage2Fallback current item
  | Stage2Outcome.timeout => stage2Fallback current item
  | Stage2Outcome.otherFailure => []

/-! ### `extract_time` (generic_scraper.py) -/

/-- `\s*(?:AM|PM|am|pm)` under `re.I`: skip whitespace greedily, then
require a meridiem; `some true` means PM. -/
def meridiemAfterWs (s : List Char) : Option Bool :=
  match s.dropWhile isPyWs with
  | a :: b :: _ =>
    if lowerChar a == 'a' && lowerChar b == 'm' then some false
    else if lowerChar a == 'p' && lowerChar b == 'm' then some true
    else none
  | _ => none

/-- `:(\d{2})\s*(?:AM|PM|am|pm)`: the tail of the first pattern after the
hour digits; yields the minute digits verbatim and the PM flag. -/
def colonMinute (s : List Char) : Option (List Char × Bool) :=
  match s with
  | c :: m1 :: m2 :: t =>
    if c == ':' && isDigitC m1 && isDigitC m2 then
      (meridiemAfterWs t).map (fun pm => ([m1, m2], pm))
    else none
  | _ => none

/-- A match of `(\d{1,2}):(\d{2})\s*(?:AM|PM|am|pm)` anchored at the head:
the regex engine tries two hour digits first, then backtracks to one. -/
def hmPattern1At (s : List Char) : Option (Nat × List Char × Bool) :=
  match s with
  | [] => none
  | d1 :: rest =>
    if isDigitC d1 then
      match rest with
      | [] => none
      | d2 :: rest2 =>
        if isDigitC d2 then
          match colonMinute rest2 with
          | some (mm, pm) => some (digitVal d1 * 10 + digitVal d2, mm, pm)
          | none => (colonMinute rest).map (fun x => (digitVal d1, x.1, x.2))
        else (colonMinute rest).map (fun x => (digitVal d1, x.1, x.2))
    else none

/-- A match of `(\d{1,2})\s*(?:AM|PM|am|pm)` anchored at the head. -/
def hPattern2At (s : List Char) : Option (Nat × Bool) :=
  match s with
  | [] => none
  | d1 :: rest =>
    if isDigitC d1 then
      match rest with
      | [] => none
      | d2 :: rest2 =>
        if isDigitC d2 then
          match meridiemAfterWs rest2 with
          | some pm => some (digitVal d1 * 10 + digitVal d2, pm)
          | none => (meridiemAfterWs rest).map (fun pm => (digitVal d1, pm))
        else (meridiemAfterWs rest).map (fun pm => (digitVal d1, pm))
    else none

/-- `re.search` of the first pattern: leftmost match. -/
def findPattern1 : List Char → Option (Nat × List Char × Bool)
  | [] => none
  | c :: t =>
    match hmPattern1At (c :: t) with
    | some r => some r
    | none => findPattern1 t

/-- `re.search` of the second pattern: leftmost match. -/
def findPattern2 : List Char → Option (Nat × Bool)
  | [] => none
  | c :: t =>
    match hPattern2At (c :: t) with
    | some r => some r
    | none => findPattern2 t

/-- `random.randint(lo, hi)` modelled by a seed: over all seeds the value
ranges over exactly `[lo, hi]`. -/
def pyRandint (lo hi seed : Nat) : Nat := lo + seed % (hi + 1 - lo)

/-- The 12-hour → 24-hour conversion of `extract_time`: `'PM' in
match.group(0).upper()` holds exactly when the matched meridiem is pm. -/
def meridiemHour (h : Nat) (pm : Bool) : Nat :=
  if pm && h != 12 then h + 12
  else if !pm && h == 12 then 0
  else h

/-- `any(word in text_lower for word in ["morning", "breakfast", "brunch"])`. -/
def kwMorning (tl : List Char) : Bool :=
  subIn (("morning").toList) tl || subIn (("breakfast").toList) tl ||
    subIn (("brunch").toList) tl

/-- `any(word in text_lower for word in ["lunch", "noon", "afternoon"])`. -/
def kwLunch (tl : List Char) : Bool :=
  subIn (("lunch").toList) tl || subIn (("noon").toList) tl ||
    subIn (("afternoon").toList) tl

/-- `any(word in text_lower for word in ["evening", "dinner", "night"])`. -/
def kwEvening (tl : List Char) : Bool :=
  subIn (("evening").toList) tl || subIn (("dinner").toList) tl ||
    subIn (("night").toList) tl

/-- `extract_time`: first the two explicit clock patterns, then the
keyword-based random defaults (morning/breakfast/brunch → randint(8, 11),
lunch/noon/afternoon → randint(12, 14), evening/dinner/night →
randint(18, 21), otherwise randint(10, 17)). -/
def extractTime (text : List Char) (seed : Nat) : List Char :=
  match findPattern1 text with
  | some (h, mm, pm) => fmt02 (meridiemHour h pm) ++ ':' :: mm
  | none =>
    match findPattern2 text with
    | some (h, pm) => fmt02 (meridiemHour h pm) ++ (":00").toList
    | none =>
      if kwMorning (lowerStr text) then
        fmt02 (pyRandint 8 11 seed) ++ (":00").toList
      else if kwLunch (lowerStr text) then
        fmt02 (pyRandint 12 14 seed) ++ (":00").toList
      else if kwEvening (lowerStr text) then
        fmt02 (pyRandint 18 21 seed) ++ (":00").toList
      else
        fmt02 (pyRandint 10 17 seed) ++ (":00").toList

/-- The hour denoted by the first two characters of an `HH:MM` string. -/
def timeHourVal : List Char → Nat
  | h1 :: h2 :: _ => digitVal h1 * 10 + digitVal h2
  | _ => 0

/-! ### The Cross-Source Deduplicator for events (C2)

Modelled from the spec: `deduplicate_events` of `backend/main.py` is
imported by the repository's tests (`test_dedup.py`,
`test_dedup_presenter.py`) but its code is not among the staged sources;
§4.6 of the spec specifies it.  Everything in this section prefixed `spec`
follows the spec's words, not source code. -/

def isAsciiAlpha (c : Char) : Bool :=
  (Nat.ble 97 c.toNat && Nat.ble c.toNat 122) ||
    (Nat.ble 65 c.toNat && Nat.ble c.toNat 90)

/-- Modelled from the spec: punctuation to strip — anything that is not a
letter, digit or whitespace. -/
def isPunctC (c : Char) : Bool := !(isDigitC c || isAsciiAlpha c || isPyWs c)

/-- Modelled from the spec: strip a leading 4-digit year (and the
whitespace after it). -/
def specStripLeadingYear (s : List Char) : List Char :=
  match s with
  | c1 :: c2 :: c3 :: c4 :: t =>
    if isDigitC c1 && isDigitC c2 && isDigitC c3 && isDigitC c4 then
      t.dropWhile isPyWs
    else s
  | _ => s

/-- Modelled from the spec: strip one leading article `the`/`a`/`an`. -/
def specStripLeadingArticle (s : List Char) : List Char :=
  ((do
    let r ← dropCaseIns (("the").toList) s
    dropWsPlus r) <|> (do
    let r ← dropCaseIns (("an").toList) s
    dropWsPlus r) <|> (do
    let r ← dropCaseIns (("a").toList) s
    dropWsPlus r)).getD s

/-- Modelled from the spec: the events title normalization — lower-case,
strip a leading 4-digit year, a leading ordinal + "annual", a leading bare
"annual" and a leading article, then strip punctuation and collapse
whitespace. -/
def specNormalizeEventTitle (title : List Char) : List Char :=
  let t0 := lowerStr (pyStrip title)
  let t1 := specStripLeadingYear t0
  let t2 := stripOrdinalAnnual t1
  let t3 := stripAnnualPrefix t2
  let t4 := specStripLeadingArticle t3
  collapseWs (t4.filter (fun c => !isPunctC c))

/-- Modelled from the spec: the events dedup key
`(date, normalized_title[:50])`. -/
def specEventKey (e : Entry) : List Char × List Char :=
  (e.start.takeWhile (fun c => c != 'T'), (specNormalizeEventTitle e.title).take 50)

/-- Modelled from the spec: conflict resolution between two key-equal
entries — prefer the entry with a non-empty description; when both or
neither have one, prefer the longer title (`a`, the earlier entry, on
ties). -/
def specBetterEntry (a b : Entry) : Entry :=
  if !a.description.isEmpty && b.description.isEmpty then a
  else if a.description.isEmpty && !b.description.isEmpty then b
  else if a.title.length < b.title.length then b
  else a

/-- Modelled from the spec: fold one incoming entry into the resolved
list — the first entry holding its key resolves the conflict in place,
otherwise the entry is appended. -/
def specInsertEntry : List Entry → Entry → List Entry
  | [], e => [e]
  | x :: r, e =>
    if specEventKey x == specEventKey e then specBetterEntry x e :: r
    else x :: specInsertEntry r e

/-- Modelled from the spec: `deduplicate_events` — resolve each key class
to one winner through the conflict rule, keeping first-seen key order. -/
def specDeduplicateEvents (l : List Entry) : List Entry :=
  l.foldl specInsertEntry []

/-! ### Concrete inputs used by the claims -/

/-- A Stage-1 item with an external detail URL and a future listing date. -/
def c1Item : Stage1Item :=
  { title := ("Azalea Festival").toList,
    url := ("https://example.org/azalea-festival").toList,
    date := ("2026-03-15").toList, time := ("10:00").toList,
    description := ("Annual festival in Drexel Park").toList,
    recurring_pattern := [] }

/-- A class entry dated five days before the run date 2026-02-06. -/
def c3Entry : Entry :=
  { title := ("Pottery Basics").toList,
    url := ("https://example.org/pottery").toList,
    description := ("Wheel throwing for beginners").toList,
    start := ("2026-02-01T10:00:00").toList,
    allDay := false, recurring_pattern := [] }

/-- An events entry dated after the run date 2026-02-06, for the amended
C3 witness. -/
def c3FutureEntry : Entry :=
  { title := ("Azalea Festival").toList,
    url := ("https://example.org/azalea").toList,
    description := [],
    start := ("2026-03-15T19:00:00").toList,
    allDay := false, recurring_pattern := [] }

/-- The Stage-1 item behind the C9 failing input. -/
def c9Item : Stage1Item :=
  { title := ("Riverfront Concert").toList,
    url := ("https://example.org/concert").toList,
    date := ("2026-02-10").toList, time := ("19:00").toList,
    description := [], recurring_pattern := [] }

/-- A Stage-2 response whose `dates` entry is a full ISO timestamp rather
than a bare date — `fromisoformat` accepts it, and the raw string is glued
into `start`. -/
def c9Data : Stage2Data :=
  { status := ("active").toList,
    dates := [("2026-06-15T18:00:00").toList],
    time := ("19:00").toList, description := [],
    corrected_title := [], recurring_pattern := [] }

/-- A first-Friday seed entry with an 18:30 start time. -/
def c5Seed : Entry :=
  { title := ("Downtown Art Walk").toList,
    url := ("https://example.org/artwalk").toList,
    description := [],
    start := ("2026-02-06T18:30:00").toList,
    allDay := false,
    recurring_pattern := ("first friday").toList }

/-- A text with a keyword and no explicit clock time. -/
def c7Text : List Char := ("pancake breakfast").toList

/-- The spec's dedup example: `2026 Annual Spring Festival`, no
description. -/
def c2EntryA : Entry :=
  { title := ("2026 Annual Spring Festival").toList,
    url := ("http://example.com/1").toList,
    description := [],
    start := ("2026-03-15T19:00:00").toList,
    allDay := false, recurring_pattern := [] }

/-- The spec's dedup example: `Spring Festival`, with a description. -/
def c2EntryB : Entry :=
  { title := ("Spring Festival").toList,
    url := ("http://example.com/2").toList,
    description := ("Live music and food trucks").toList,
    start := ("2026-03-15T19:00:00").toList,
    allDay := false, recurring_pattern := [] }

/-! ### Generic facts about the dedup shape -/

theorem dedupPassAux_sublist {K : Type} [DecidableEq K] (key : Entry → K) :
    ∀ (seen : List K) (l : List Entry), (dedupPassAux key seen l).Sublist l := by
  intro seen l
  induction l generalizing seen with
  | nil => simp [dedupPassAux]
  | cons e t ih =>
    rw [dedupPassAux]
    split
    · exact (ih seen).cons e
    · exact (ih (key e :: seen)).cons₂ e

theorem dedupPass_sublist {K : Type} [DecidableEq K] (key : Entry → K)
    (l : List Entry) : (dedupPass key l).Sublist l :=
  dedupPassAux_sublist key [] l

/-- Only membership in `seen` matters, not its arrangement. -/
theorem dedupPassAux_congr {K : Type} [DecidableEq K] (key : Entry → K)
    (seen₁ seen₂ : List K) (h : ∀ k, k ∈ seen₁ ↔ k ∈ seen₂) :
    ∀ l, dedupPassAux key seen₁ l = dedupPassAux key seen₂ l := by
  intro l
  induction l generalizing seen₁ seen₂ with
  | nil => rfl
  | cons e t ih =>
    rw [dedupPassAux, dedupPassAux]
    by_cases hm : key e ∈ seen₁
    · rw [if_pos hm, if_pos ((h (key e)).1 hm)]
      exact ih seen₁ seen₂ h
    · rw [if_neg hm, if_neg (fun hx => hm ((h (key e)).2 hx))]
      refine congrArg (e :: ·) (ih _ _ ?_)
      intro k
      simp only [List.mem_cons]
      exact or_congr Iff.rfl (h k)

/-- Growing `seen` by one key is the same as filtering that key away. -/
theorem dedupPassAux_cons_seen {K : Type} [DecidableEq K] (key : Entry → K)
    (k : K) (seen : List K) :
    ∀ l, dedupPassAux key (k :: seen) l =
      dedupPassAux key seen (l.filter (fun e => decide (key e ≠ k))) := by
  intro l
  induction l generalizing seen with
  | nil => rfl
  | cons e t ih =>
    by_cases hek : key e = k
    · have hmem : key e ∈ k :: seen := by simp [hek]
      rw [dedupPassAux, if_pos hmem, List.filter_cons,
        if_neg (by simp [hek])]
      exact ih seen
    · rw [List.filter_cons, if_pos (by simpa using hek), dedupPassAux,
        dedupPassAux]
      by_cases hm : key e ∈ seen
      · rw [if_pos (by simp [hm]), if_pos hm]
        exact ih seen
      · rw [if_neg (by simp [hek, hm]), if_neg hm]
        refine congrArg (e :: ·) ?_
        rw [dedupPassAux_congr key (key e :: k :: seen) (k :: key e :: seen)
          (fun x => by simp only [List.mem_cons]; tauto) t]
        exact ih (key e :: seen)

/-- First-seen-wins recursion: the head survives and erases every later
entry carrying its key. -/
theorem dedupPass_cons {K : Type} [DecidableEq K] (key : Entry → K)
    (x : Entry) (t : List Entry) :
    dedupPass key (x :: t) =
      x :: dedupPass key (t.filter (fun e => decide (key e ≠ key x))) := by
  rw [dedupPass, dedupPassAux, if_neg (List.not_mem_nil _)]
  exact congrArg (x :: ·) (dedupPassAux_cons_seen key (key x) [] t)

/-- Entries coming out of the pass carry pairwise distinct keys, none of
them in `seen`. -/
theorem dedupPassAux_keys {K : Type} [DecidableEq K] (key : Entry → K) :
    ∀ (seen : List K) (l : List Entry),
      (∀ e ∈ dedupPassAux key seen l, key e ∉ seen) ∧
      (dedupPassAux key seen l).Pairwise (fun a b => key a ≠ key b) := by
  intro seen l
  induction l generalizing seen with
  | nil => simp [dedupPassAux]
  | cons e t ih =>
    rw [dedupPassAux]
    split
    · exact ih seen
    · rename_i hnm
      obtain ⟨h1, h2⟩ := ih (key e :: seen)
      refine ⟨?_, ?_⟩
      · intro x hx
        rcases List.mem_cons.1 hx with h | h
        · subst h; exact hnm
        · exact fun hc => h1 x h (by simp [hc])
      · refine List.Pairwise.cons ?_ h2
        intro b hb hc
        exact h1 b hb (by simp [hc])

/-- A list whose keys avoid `seen` and are pairwise distinct passes through
unchanged. -/
theorem dedupPassAux_of_distinct {K : Type} [DecidableEq K] (key : Entry → K) :
    ∀ (seen : List K) (l : List Entry),
      (∀ e ∈ l, key e ∉ seen) →
      l.Pairwise (fun a b => key a ≠ key b) →
      dedupPassAux key seen l = l := by
  intro seen l
  induction l generalizing seen with
  | nil => intro _ _; rfl
  | cons e t ih =>
    intro hseen hpw
    rw [dedupPassAux, if_neg (hseen e (List.mem_cons_self e t))]
    refine congrArg (e :: ·) (ih (key e :: seen) ?_ (List.Pairwise.of_cons hpw))
    intro x hx
    rw [List.mem_cons]
    rintro (h | h)
    · exact (List.pairwise_cons.1 hpw).1 x hx h.symm
    · exact hseen x (List.mem_cons_of_mem e hx) h

theorem dedupPass_idem {K : Type} [DecidableEq K] (key : Entry → K)
    (l : List Entry) : dedupPass key (dedupPass key l) = dedupPass key l := by
  obtain ⟨h1, h2⟩ := dedupPassAux_keys key [] l
  exact dedupPassAux_of_distinct key [] _ (fun e he => List.not_mem_nil _) h2

/-! ### Sentence-boundary-aware description truncation (C6) -/

theorem rfindLast_some {q : Char → Bool} :
    ∀ {l : List Char} {i : Nat}, rfindLast q l = some i →
      ∃ h : i < l.length, q (l.get ⟨i, h⟩) = true := by
  intro l
  induction l with
  | nil => intro i h; cases h
  | cons c t ih =>
    intro i h
    rw [rfindLast] at h
    rcases hr : rfindLast q t with _ | j
    · rw [hr] at h
      by_cases hc : q c = true
      · rw [if_pos hc] at h
        cases h
        exact ⟨Nat.succ_pos _, hc⟩
      · rw [if_neg hc] at h; cases h
    · rw [hr] at h
      cases h
      obtain ⟨hj, hq⟩ := ih hr
      exact ⟨Nat.succ_lt_succ hj, hq⟩

theorem dropWhile_eq_self_of_head {q : Char → Bool} (l : List Char)
    (h : ∀ c, l.head? = some c → q c = false) : l.dropWhile q = l := by
  cases l with
  | nil => rfl
  | cons a t => simp [List.dropWhile_cons, h a rfl]

theorem pyStrip_eq_self (l : List Char)
    (h1 : ∀ c, l.head? = some c → isPyWs c = false)
    (h2 : ∀ c, l.getLast? = some c → isPyWs c = false) : pyStrip l = l := by
  unfold pyStrip
  rw [dropWhile_eq_self_of_head l h1,
    dropWhile_eq_self_of_head l.reverse
      (fun c hc => h2 c (by rwa [List.head?_reverse] at hc)),
    List.reverse_reverse]

theorem head?_take {l : List Char} {n : Nat} (h : 0 < n) :
    (l.take n).head? = l.head? := by
  cases l with
  | nil => simp
  | cons a t =>
    cases n with
    | zero => omega
    | succ k => simp [List.take_succ_cons]

theorem getLast?_take_succ (l : List Char) (p : Nat) (h : p < l.length) :
    (l.take (p + 1)).getLast? = l.get? p := by
  have hlen : (l.take (p + 1)).length = p + 1 := by
    simp [List.length_take]; omega
  rw [List.getLast?_eq_get?, hlen, Nat.add_sub_cancel, List.get?_take (Nat.lt_succ_self p)]

theorem sentencePunct_not_ws (c : Char) (h : isSentencePunct c = true) :
    isPyWs c = false := by
  unfold isSentencePunct at h
  rcases Bool.or_eq_true_iff.1 h with h' | h'
  · rcases Bool.or_eq_true_iff.1 h' with h'' | h''
    · rw [eq_of_beq h'']; decide
    · rw [eq_of_beq h'']; decide
  · rw [eq_of_beq h']; decide

/-- C6: `_truncate_description` with the 150-character budget returns input
of length at most 150 unchanged; on longer input, when the last `.`/`!`/`?`
of the first 150 characters sits at an index above 90 it returns the prefix
through that character, and otherwise it cuts at the last space of the first
150 characters (when one sits past index 0) and appends an ellipsis — the
whitespace hypotheses rule out Python's extra `.strip()` trimming.  In
particular a 151-character description with its period at index 100 keeps
exactly its first 101 characters, and one with no sentence punctuation cuts
at its last space and gains `...`. -/
theorem claim_C6_truncation :
    (∀ desc : List Char, desc.length ≤ 150 → truncateDescription desc = desc) ∧
    (∀ (desc : List Char) (p : Nat), 150 < desc.length →
      rfindLast isSentencePunct (desc.take 150) = some p → 90 < p →
      (∀ c, desc.head? = some c → isPyWs c = false) →
      truncateDescription desc = desc.take (p + 1)) ∧
    (∀ (desc : List Char) (j : Nat), 150 < desc.length →
      (∀ p, rfindLast isSentencePunct (desc.take 150) = some p → p ≤ 90) →
      rfindLast (fun c => c == ' ') (desc.take 150) = some j → 0 < j →
      (∀ c, desc.head? = some c → isPyWs c = false) →
      (∀ c, (desc.take j).getLast? = some c → isPyWs c = false) →
      truncateDescription desc = desc.take j ++ ("...").toList) ∧
    truncateDescription c6ExampleA = c6ExampleA.take 101 ∧
    truncateDescription c6ExampleB =
      List.replicate 30 'a' ++ ' ' :: List.replicate 80 'b' ++ ("...").toList := by
  refine ⟨?_, ?_, ?_, by decide, by decide⟩
  · intro desc h
    rw [truncateDescription, if_pos h]
  · intro desc p hlen hfind hgt hhead
    rw [truncateDescription, if_neg (show ¬ desc.length ≤ 150 by omega), hfind]
    show (if 90 < p then pyStrip (desc.take (p + 1))
      else truncAtSpace (desc.take 150)) = desc.take (p + 1)
    rw [if_pos hgt]
    obtain ⟨hp, hq⟩ := rfindLast_some hfind
    have hlt : p < desc.length := by
      rw [List.length_take] at hp; omega
    apply pyStrip_eq_self
    · intro c hc
      exact hhead c (by rwa [head?_take (by omega)] at hc)
    · intro c hc
      rw [getLast?_take_succ desc p hlt, List.get?_eq_get hlt] at hc
      have hcc : desc.get ⟨p, hlt⟩ = c := Option.some.inj hc
      have hcc2 : (List.take 150 desc).get ⟨p, hp⟩ = desc.get ⟨p, hlt⟩ := by
        simp [List.get_eq_getElem, List.getElem_take]
      refine sentencePunct_not_ws c ?_
      rw [← hcc]
      rwa [hcc2] at hq
  · intro desc j hlen hple hspace hj hhead hlastc
    have hstep : truncateDescription desc = truncAtSpace (desc.take 150) := by
      rw [truncateDescription, if_neg (show ¬ desc.length ≤ 150 by omega)]
      rcases hfind : rfindLast isSentencePunct (desc.take 150) with _ | p
      · rfl
      · show (if 90 < p then pyStrip (desc.take (p + 1))
          else truncAtSpace (desc.take 150)) = truncAtSpace (desc.take 150)
        rw [if_neg (show ¬ 90 < p by have := hple p hfind; omega)]
    obtain ⟨hjlt, _⟩ := rfindLast_some hspace
    have hjle : j ≤ 150 := by
      rw [List.length_take] at hjlt; omega
    have htt : (desc.take 150).take j = desc.take j := by
      rw [List.take_take, Nat.min_eq_left hjle]
    rw [hstep, truncAtSpace, hspace]
    show (if 0 < j then pyStrip ((desc.take 150).take j) ++ ("...").toList
      else desc.take 150 ++ ("...").toList) = desc.take j ++ ("...").toList
    rw [if_pos hj, htt]
    refine congrArg (· ++ ("...").toList) (pyStrip_eq_self _ ?_ hlastc)
    intro c hc
    exact hhead c (by rwa [head?_take hj] at hc)

/-- Witness for C6: the space-cut branch applied at the concrete
152-character input with its last in-budget space at index 111. -/
theorem claim_C6_truncation_witness :
    150 < c6ExampleB.length ∧
    rfindLast (fun c => c == ' ') (c6ExampleB.take 150) = some 111 ∧
    truncateDescription c6ExampleB = c6ExampleB.take 111 ++ ("...").toList := by
  refine ⟨by decide, by decide, ?_⟩
  refine claim_C6_truncation.2.2.1 c6ExampleB 111 (by decide) ?_ (by decide)
    (by decide) ?_ ?_
  · intro p hp
    rw [(by decide : rfindLast isSentencePunct (c6ExampleB.take 150) = none)] at hp
    cases hp
  · intro c hc
    rw [(by decide : c6ExampleB.head? = some 'a')] at hc
    have h := Option.some.inj hc
    subst h
    decide
  · intro c hc
    rw [(by decide : (c6ExampleB.take 111).getLast? = some 'b')] at hc
    have h := Option.some.inj hc
    subst h
    decide

/-- C4 counterexample: for parsed date 2024-02-29 (a leap-year February
29) seen from 2024-06-01, `months_diff = 4 > 2`, but the program does not
add one year: `parsed_date.replace(year=2025)` raises `ValueError`
(2025-02-29 does not exist) and the bare `except:` yields today's date
2024-06-01 instead of 2025-02-29. -/
theorem claim_C4_counterexample :
    2 < monthsDiff ⟨2024, 6, 1⟩ ⟨2024, 2, 29⟩ ∧
    smartYearAdjust ⟨2024, 6, 1⟩ ⟨2024, 2, 29⟩ = ⟨2024, 6, 1⟩ ∧
    (⟨2024, 6, 1⟩ : Date) ≠ ⟨2025, 2, 29⟩ :=
  ⟨by decide, by decide, by decide⟩

/-- C4 (amended): when `months_diff > 2`, one year is added to the parsed
date provided its day exists in the bumped year's month; for a parsed
February 29 the `replace` raises and the bare `except:` falls back to
today's date.  When `months_diff ≤ 2` (including `months_diff < 0`) the
parsed date is kept.  In particular "January 15" seen from 2026-11-01
lands on 2027-01-15, and "November 13" seen from 2026-02-06 stays
2026-11-13. -/
theorem claim_C4_year_inference :
    (∀ current parsed : Date,
      (2 < monthsDiff current parsed →
        parsed.day ≤ daysInMonth (parsed.year + 1) parsed.month →
        smartYearAdjust current parsed = { parsed with year := parsed.year + 1 }) ∧
      (2 < monthsDiff current parsed →
        ¬ parsed.day ≤ daysInMonth (parsed.year + 1) parsed.month →
        smartYearAdjust current parsed = current) ∧
      (monthsDiff current parsed ≤ 2 →
        smartYearAdjust current parsed = parsed)) ∧
    smartYearAdjust ⟨2026, 11, 1⟩ ⟨2026, 1, 15⟩ = ⟨2027, 1, 15⟩ ∧
    smartYearAdjust ⟨2026, 2, 6⟩ ⟨2026, 11, 13⟩ = ⟨2026, 11, 13⟩ := by
  refine ⟨?_, by decide, by decide⟩
  intro current parsed
  refine ⟨?_, ?_, ?_⟩
  · intro h hv
    rw [smartYearAdjust, if_pos (show monthsDiff current parsed > 2 from h),
      if_pos hv]
  · intro h hv
    rw [smartYearAdjust, if_pos (show monthsDiff current parsed > 2 from h),
      if_neg hv]
  · intro h
    rw [smartYearAdjust, if_neg (show ¬ monthsDiff current parsed > 2 by omega)]
    split
    · rfl
    · split <;> rfl

/-- Witness for C4 (amended): the three implications discharged at the
spec's two examples and at the leap-day input. -/
theorem claim_C4_year_inference_witness :
    (2 < monthsDiff ⟨2026, 11, 1⟩ ⟨2026, 1, 15⟩ ∧
      (15 : Nat) ≤ daysInMonth 2027 1 ∧
      smartYearAdjust ⟨2026, 11, 1⟩ ⟨2026, 1, 15⟩ = ⟨2027, 1, 15⟩) ∧
    (monthsDiff ⟨2026, 2, 6⟩ ⟨2026, 11, 13⟩ ≤ 2 ∧
      smartYearAdjust ⟨2026, 2, 6⟩ ⟨2026, 11, 13⟩ = ⟨2026, 11, 13⟩) ∧
    (2 < monthsDiff ⟨2024, 6, 1⟩ ⟨2024, 2, 29⟩ ∧
      ¬ (29 : Nat) ≤ daysInMonth 2025 2 ∧
      smartYearAdjust ⟨2024, 6, 1⟩ ⟨2024, 2, 29⟩ = ⟨2024, 6, 1⟩) :=
  ⟨⟨by decide, by decide,
    (claim_C4_year_inference.1 ⟨2026, 11, 1⟩ ⟨2026, 1, 15⟩).1 (by decide)
      (by decide)⟩,
   ⟨by decide,
    (claim_C4_year_inference.1 ⟨2026, 2, 6⟩ ⟨2026, 11, 13⟩).2.2 (by decide)⟩,
   ⟨by decide, by decide,
    (claim_C4_year_inference.1 ⟨2024, 6, 1⟩ ⟨2024, 2, 29⟩).2.1 (by decide)
      (by decide)⟩⟩

/-- C8: each of the three deduplication passes of the pipeline — the
per-source `(title, start)` dedup of `scrape_site`, the same-page
`(date, title[:30])` dedup of `_post_process_ai_results` and the two-stage
`(url, date, title[:50])` dedup of `_scrape_twostage` — is idempotent:
applied to its own output it returns that output unchanged. -/
theorem claim_C8_dedup_idempotent :
    (∀ l : List Entry, scrapeSiteDedup (scrapeSiteDedup l) = scrapeSiteDedup l) ∧
    (∀ l : List Entry, samePageDedup (samePageDedup l) = samePageDedup l) ∧
    (∀ l : List Entry, twoStageDedup (twoStageDedup l) = twoStageDedup l) :=
  ⟨fun l => dedupPass_idem scrapeSiteDedupKey l,
   fun l => dedupPass_idem samePageDedupKey l,
   fun l => dedupPass_idem twoStageDedupKey l⟩

/-- C10: each deduplication pass keeps, per key, exactly the first entry in
input order: its output is a sublist of its input, and the head of any list
survives while every later entry with the same key is dropped — so survival
depends only on position, never on description or title length. -/
theorem claim_C10_dedup_first_entry_wins :
    ((∀ l : List Entry, (scrapeSiteDedup l).Sublist l) ∧
      ∀ (x : Entry) (t : List Entry),
        scrapeSiteDedup (x :: t) = x :: scrapeSiteDedup
          (t.filter (fun e => decide (scrapeSiteDedupKey e ≠ scrapeSiteDedupKey x)))) ∧
    ((∀ l : List Entry, (samePageDedup l).Sublist l) ∧
      ∀ (x : Entry) (t : List Entry),
        samePageDedup (x :: t) = x :: samePageDedup
          (t.filter (fun e => decide (samePageDedupKey e ≠ samePageDedupKey x)))) ∧
    ((∀ l : List Entry, (twoStageDedup l).Sublist l) ∧
      ∀ (x : Entry) (t : List Entry),
        twoStageDedup (x :: t) = x :: twoStageDedup
          (t.filter (fun e => decide (twoStageDedupKey e ≠ twoStageDedupKey x)))) :=
  ⟨⟨fun l => dedupPass_sublist scrapeSiteDedupKey l,
    fun x t => dedupPass_cons scrapeSiteDedupKey x t⟩,
   ⟨fun l => dedupPass_sublist samePageDedupKey l,
    fun x t => dedupPass_cons samePageDedupKey x t⟩,
   ⟨fun l => dedupPass_sublist twoStageDedupKey l,
    fun x t => dedupPass_cons twoStageDedupKey x t⟩⟩

/-! ### C1: Stage-2 failure handling -/

/-- C1 counterexample: a Stage-2 detail fetch whose response is malformed
JSON — or whose fetch fails with anything but an HTTP error status or a
timeout — drops the item (`continue`), even though it has a detail URL and
a non-empty, future Stage-1 listing date. -/
theorem claim_C1_counterexample :
    c1Item.date ≠ [] ∧
    pyFromIsoDate c1Item.date = some ⟨2026, 3, 15⟩ ∧
    dateLe ⟨2026, 2, 6⟩ ⟨2026, 3, 15⟩ = true ∧
    processStage2Item ⟨2026, 2, 6⟩ c1Item Stage2Outcome.jsonMalformed = [] ∧
    processStage2Item ⟨2026, 2, 6⟩ c1Item Stage2Outcome.otherFailure = [] :=
  ⟨by decide, by decide, by decide, rfl, rfl⟩

/-- C1 (amended): among the Stage-2 failure modes, exactly the HTTP-error
and timeout handlers fall back to one Calendar Entry built from the Stage-1
listing date and time (under the past-date rule); malformed JSON and every
other failure, connection errors included, drop the item. -/
theorem claim_C1_stage2_failure_handling :
    (∀ (current : Date) (item : Stage1Item) (d : Date),
      item.date ≠ [] → pyFromIsoDate item.date = some d →
      dateLe current d = true →
      processStage2Item current item Stage2Outcome.httpError =
        [{ title := fixTypos item.title, url := item.url,
           description := truncateDescription item.description,
           start := item.date ++ 'T' ::
             (if isTimeHHMM item.time then item.time else ("19:00").toList) ++
             (":00").toList,
           allDay := false, recurring_pattern := item.recurring_pattern }] ∧
      processStage2Item current item Stage2Outcome.timeout =
        [{ title := fixTypos item.title, url := item.url,
           description := truncateDescription item.description,
           start := item.date ++ 'T' ::
             (if isTimeHHMM item.time then item.time else ("19:00").toList) ++
             (":00").toList,
           allDay := false, recurring_pattern := item.recurring_pattern }]) ∧
    (∀ (current : Date) (item : Stage1Item),
      processStage2Item current item Stage2Outcome.jsonMalformed = [] ∧
      processStage2Item current item Stage2Outcome.otherFailure = []) := by
  constructor
  · intro current item d hne hparse hle
    have hie : item.date.isEmpty = false := by
      cases hd : item.date
      · exact absurd hd hne
      · rfl
    have hfb : stage2Fallback current item =
        [{ title := fixTypos item.title, url := item.url,
           description := truncateDescription item.description,
           start := item.date ++ 'T' ::
             (if isTimeHHMM item.time then item.time else ("19:00").toList) ++
             (":00").toList,
           allDay := false, recurring_pattern := item.recurring_pattern }] := by
      rw [stage2Fallback]
      rw [if_neg (by rw [hie]; exact Bool.false_ne_true)]
      rw [hparse]
      show (if dateLe current d || isSupportedRecurringPattern item.recurring_pattern
        then _ else []) = _
      rw [if_pos (by rw [hle, Bool.true_or])]
    exact ⟨hfb, hfb⟩
  · intro current item
    exact ⟨rfl, rfl⟩

/-- Witness for C1 (amended), at the concrete Stage-1 item. -/
theorem claim_C1_stage2_failure_handling_witness :
    c1Item.date ≠ [] ∧
    pyFromIsoDate c1Item.date = some ⟨2026, 3, 15⟩ ∧
    dateLe ⟨2026, 2, 6⟩ ⟨2026, 3, 15⟩ = true ∧
    processStage2Item ⟨2026, 2, 6⟩ c1Item Stage2Outcome.timeout =
      [{ title := fixTypos c1Item.title, url := c1Item.url,
         description := truncateDescription c1Item.description,
         start := c1Item.date ++ 'T' ::
           (if isTimeHHMM c1Item.time then c1Item.time else ("19:00").toList) ++
           (":00").toList,
         allDay := false, recurring_pattern := c1Item.recurring_pattern }] :=
  ⟨by decide, by decide, by decide,
    (claim_C1_stage2_failure_handling.1 ⟨2026, 2, 6⟩ c1Item ⟨2026, 3, 15⟩
      (by decide) (by decide) (by decide)).2⟩

/-! ### C9: the emitted `start` shape -/

/-- C9: the Two-Stage Resolver builds `start` by gluing the raw Stage-2
date string onto the time; `fromisoformat` accepts a full ISO timestamp as
that date string, so the emitted `start` becomes
`2026-06-15T18:00:00T19:00:00` — not of the contracted
`YYYY-MM-DDTHH:MM:SS` shape.  This violates the spec's output contract; the
source's own validation (taking `.date()` of the parse) shows the date
string was meant to be a bare date. -/
theorem claim_C9_start_format_violation :
    (processStage2Item ⟨2026, 2, 6⟩ c9Item (Stage2Outcome.parsed c9Data)).map
      Entry.start = [("2026-06-15T18:00:00T19:00:00").toList] ∧
    (processStage2Item ⟨2026, 2, 6⟩ c9Item (Stage2Outcome.parsed c9Data)).map
      (fun e => isWellFormedStart e.start) = [false] :=
  ⟨by decide, by decide⟩

/-! ### C3: the past-date invariant -/

theorem filterFutureDates_sound (current : Date) :
    ∀ (l out : List Entry), filterFutureDates current l = some out →
      ∀ e ∈ out, ∃ d,
        parseIsoDate10 (e.start.takeWhile (fun c => c != 'T')) = some d ∧
        dateLe current d = true := by
  intro l
  induction l with
  | nil =>
    intro out h e he
    cases h
    exact absurd he (List.not_mem_nil e)
  | cons x t ih =>
    intro out h e he
    rw [filterFutureDates] at h
    rcases hp : parseIsoDate10 (x.start.takeWhile (fun c => c != 'T')) with _ | d
    · rw [hp] at h; cases h
    · rw [hp] at h
      rcases hr : filterFutureDates current t with _ | r
      · rw [hr] at h; cases h
      · rw [hr] at h
        have hout := Option.some.inj h
        by_cases hd : dateLe current d = true
        · rw [if_pos hd] at hout
          rw [← hout] at he
          rcases List.mem_cons.1 he with h1 | h1
          · subst h1; exact ⟨d, hp, hd⟩
          · exact ih r hr e h1
        · rw [if_neg hd] at hout
          rw [← hout] at he
          exact ih r hr e he

theorem filterRecentClasses_sound (current : Date) :
    ∀ (l out : List Entry), filterRecentClasses current l = some out →
      ∀ e ∈ out, ∃ d,
        parseIsoDate10 (e.start.takeWhile (fun c => c != 'T')) = some d ∧
        (daysFromCivil current : Int) - daysFromCivil d ≤ 30 := by
  intro l
  induction l with
  | nil =>
    intro out h e he
    cases h
    exact absurd he (List.not_mem_nil e)
  | cons x t ih =>
    intro out h e he
    rw [filterRecentClasses] at h
    rcases hp : parseIsoDate10 (x.start.takeWhile (fun c => c != 'T')) with _ | d
    · rw [hp] at h; cases h
    · rw [hp] at h
      rcases hr : filterRecentClasses current t with _ | r
      · rw [hr] at h; cases h
      · rw [hr] at h
        have hout := Option.some.inj h
        by_cases hd : (daysFromCivil current : Int) - daysFromCivil d ≤ 30
        · rw [if_pos hd] at hout
          rw [← hout] at he
          rcases List.mem_cons.1 he with h1 | h1
          · subst h1; exact ⟨d, hp, hd⟩
          · exact ih r hr e h1
        · rw [if_neg hd] at hout
          rw [← hout] at he
          exact ih r hr e he

/-- C3 counterexample: a classes entry dated five days before the run date
2026-02-06, with no recognized recurring pattern, survives
`_post_process_ai_results` into the final output — the classes filter
keeps anything at most 30 days old, so the claim's "for every category,
including classes" fails. -/
theorem claim_C3_counterexample :
    isSupportedRecurringPattern c3Entry.recurring_pattern = false ∧
    postProcessAiResults SourceType.classes ⟨2026, 2, 6⟩ [c3Entry] =
      some [c3Entry] ∧
    parseIsoDate10 (c3Entry.start.takeWhile (fun c => c != 'T')) =
      some ⟨2026, 2, 1⟩ ∧
    dateLe ⟨2026, 2, 6⟩ ⟨2026, 2, 1⟩ = false :=
  ⟨by decide, by decide, by decide, by decide⟩

/-- C3 (amended): in `_post_process_ai_results` output, events and
meetings entries are dated on or after the run date; classes entries may
be up to 30 days older than the run date. -/
theorem claim_C3_amended_past_date :
    (∀ (current : Date) (l out : List Entry) (st : SourceType),
      st = SourceType.events ∨ st = SourceType.meetings →
      postProcessAiResults st current l = some out →
      ∀ e ∈ out, ∃ d,
        parseIsoDate10 (e.start.takeWhile (fun c => c != 'T')) = some d ∧
        dateLe current d = true) ∧
    (∀ (current : Date) (l out : List Entry),
      postProcessAiResults SourceType.classes current l = some out →
      ∀ e ∈ out, ∃ d,
        parseIsoDate10 (e.start.takeWhile (fun c => c != 'T')) = some d ∧
        (daysFromCivil current : Int) - daysFromCivil d ≤ 30) := by
  constructor
  · intro current l out st hst h e he
    rcases hst with h1 | h1 <;> subst h1
    · rcases hf : filterFutureDates current (postStep1 SourceType.events l)
        with _ | mid
      · rw [show postProcessAiResults SourceType.events current l =
          (filterFutureDates current (postStep1 SourceType.events l)).map
            samePageDedup from rfl, hf] at h
        cases h
      · rw [show postProcessAiResults SourceType.events current l =
          (filterFutureDates current (postStep1 SourceType.events l)).map
            samePageDedup from rfl, hf] at h
        have hout := Option.some.inj h
        rw [← hout] at he
        exact filterFutureDates_sound current _ mid hf e
          ((dedupPass_sublist samePageDedupKey mid).subset he)
    · exact filterFutureDates_sound current _ out h e he
  · intro current l out h e he
    exact filterRecentClasses_sound current _ out h e he

/-- Witness for C3 (amended): the events branch at a concrete future-dated
entry. -/
theorem claim_C3_amended_past_date_witness :
    postProcessAiResults SourceType.events ⟨2026, 2, 6⟩ [c3FutureEntry] =
      some [c3FutureEntry] ∧
    (∃ d, parseIsoDate10 (c3FutureEntry.start.takeWhile (fun c => c != 'T')) =
        some d ∧ dateLe ⟨2026, 2, 6⟩ d = true) :=
  ⟨by decide,
    claim_C3_amended_past_date.1 ⟨2026, 2, 6⟩ [c3FutureEntry] [c3FutureEntry]
      SourceType.events (Or.inl rfl) (by decide) c3FutureEntry
      (List.mem_cons_self c3FutureEntry [])⟩

/-! ### C2: cross-source event dedup conflict resolution (spec-modelled) -/

theorem specDeduplicateEvents_pair (a b : Entry)
    (hk : specEventKey a = specEventKey b) :
    specDeduplicateEvents [a, b] = [specBetterEntry a b] := by
  have hbeq : (specEventKey a == specEventKey b) = true := by
    simp [hk]
  simp [specDeduplicateEvents, specInsertEntry, List.foldl, hbeq]

/-- C2 (spec-modelled): whenever two entries share the events dedup key,
`deduplicate_events` keeps the one with a non-empty description; when both
or neither have one, it keeps the one with the longer title.  The spec's
example pair — `2026 Annual Spring Festival` (no description) and
`Spring Festival` (with description) on 2026-03-15 — normalizes to the
same key and merges to the single entry titled `Spring Festival` in either
input order. -/
theorem claim_C2_event_dedup_conflict :
    (∀ a b : Entry, specEventKey a = specEventKey b →
      (a.description ≠ [] → b.description = [] →
        specDeduplicateEvents [a, b] = [a]) ∧
      (a.description = [] → b.description ≠ [] →
        specDeduplicateEvents [a, b] = [b]) ∧
      ((a.description = [] ↔ b.description = []) →
        a.title.length < b.title.length →
        specDeduplicateEvents [a, b] = [b]) ∧
      ((a.description = [] ↔ b.description = []) →
        ¬ a.title.length < b.title.length →
        specDeduplicateEvents [a, b] = [a])) ∧
    specEventKey c2EntryA = specEventKey c2EntryB ∧
    specDeduplicateEvents [c2EntryA, c2EntryB] = [c2EntryB] ∧
    specDeduplicateEvents [c2EntryB, c2EntryA] = [c2EntryB] := by
  refine ⟨?_, by decide, by decide, by decide⟩
  intro a b hk
  have hpair := specDeduplicateEvents_pair a b hk
  refine ⟨?_, ?_, ?_, ?_⟩ <;> intro h1 h2 <;> rw [hpair] <;> congr 1
  · have ha : a.description.isEmpty = false := by
      cases hd : a.description
      · exact absurd hd h1
      · rfl
    have hb : b.description.isEmpty = true := by rw [h2]; rfl
    simp [specBetterEntry, ha, hb]
  · have ha : a.description.isEmpty = true := by rw [h1]; rfl
    have hb : b.description.isEmpty = false := by
      cases hd : b.description
      · exact absurd hd h2
      · rfl
    simp [specBetterEntry, ha, hb]
  · by_cases hae : a.description = []
    · have hbe := h1.mp hae
      have ha : a.description.isEmpty = true := by rw [hae]; rfl
      have hb : b.description.isEmpty = true := by rw [hbe]; rfl
      simp [specBetterEntry, ha, hb, h2]
    · have hbe : b.description ≠ [] := fun hc => hae (h1.mpr hc)
      have ha : a.description.isEmpty = false := by
        cases hd : a.description
        · exact absurd hd hae
        · rfl
      have hb : b.description.isEmpty = false := by
        cases hd : b.description
        · exact absurd hd hbe
        · rfl
      simp [specBetterEntry, ha, hb, h2]
  · by_cases hae : a.description = []
    · have hbe := h1.mp hae
      have ha : a.description.isEmpty = true := by rw [hae]; rfl
      have hb : b.description.isEmpty = true := by rw [hbe]; rfl
      simp [specBetterEntry, ha, hb, h2]
    · have hbe : b.description ≠ [] := fun hc => hae (h1.mpr hc)
      have ha : a.description.isEmpty = false := by
        cases hd : a.description
        · exact absurd hd hae
        · rfl
      have hb : b.description.isEmpty = false := by
        cases hd : b.description
        · exact absurd hd hbe
        · rfl
      simp [specBetterEntry, ha, hb, h2]

/-- Witness for C2: the description-wins implication discharged at the
spec's concrete pair. -/
theorem claim_C2_event_dedup_conflict_witness :
    specEventKey c2EntryA = specEventKey c2EntryB ∧
    c2EntryA.description = [] ∧ c2EntryB.description ≠ [] ∧
    specDeduplicateEvents [c2EntryA, c2EntryB] = [c2EntryB] :=
  ⟨by decide, by decide, by decide,
    (claim_C2_event_dedup_conflict.1 c2EntryA c2EntryB (by decide)).2.1
      (by decide) (by decide)⟩

/-! ### C7: `extract_time` keyword defaults -/

theorem timeHourVal_fmt02 (h : Nat) (r : List Char) (hh : h < 24) :
    timeHourVal (fmt02 h ++ r) = h := by
  interval_cases h <;> rfl

/-- C7 counterexample: on `pancake breakfast`, which has no explicit clock
time, `extract_time` can return `11:00` (draw `randint(8, 11) = 11`) — an
hour outside the claim's 07–09 breakfast range.  (The 7–9/11–13/10–16/9–15
ranges live in `scrape_site` of main.py, not in `extract_time`.) -/
theorem claim_C7_counterexample :
    findPattern1 c7Text = none ∧ findPattern2 c7Text = none ∧
    kwMorning (lowerStr c7Text) = true ∧
    extractTime c7Text 3 = ("11:00").toList ∧
    ¬(7 ≤ timeHourVal (extractTime c7Text 3) ∧
      timeHourVal (extractTime c7Text 3) ≤ 9) :=
  ⟨by decide, by decide, by decide, by decide, by decide⟩

/-- C7 (amended): when no explicit clock-time pattern matches, the default
hour of `extract_time` lies, for every draw, in 08–11 for
morning/breakfast/brunch texts, 12–14 for lunch/noon/afternoon, 18–21 for
evening/dinner/night, and 10–17 otherwise — there is no
festival/fair/market or tour/outdoor branch in this function. -/
theorem claim_C7_default_time_ranges :
    ∀ (text : List Char) (seed : Nat),
      findPattern1 text = none → findPattern2 text = none →
      (kwMorning (lowerStr text) = true →
        8 ≤ timeHourVal (extractTime text seed) ∧
        timeHourVal (extractTime text seed) ≤ 11) ∧
      (kwMorning (lowerStr text) = false → kwLunch (lowerStr text) = true →
        12 ≤ timeHourVal (extractTime text seed) ∧
        timeHourVal (extractTime text seed) ≤ 14) ∧
      (kwMorning (lowerStr text) = false → kwLunch (lowerStr text) = false →
        kwEvening (lowerStr text) = true →
        18 ≤ timeHourVal (extractTime text seed) ∧
        timeHourVal (extractTime text seed) ≤ 21) ∧
      (kwMorning (lowerStr text) = false → kwLunch (lowerStr text) = false →
        kwEvening (lowerStr text) = false →
        10 ≤ timeHourVal (extractTime text seed) ∧
        timeHourVal (extractTime text seed) ≤ 17) := by
  intro text seed h1 h2
  have hval : extractTime text seed =
      (if kwMorning (lowerStr text) then
        fmt02 (pyRandint 8 11 seed) ++ (":00").toList
      else if kwLunch (lowerStr text) then
        fmt02 (pyRandint 12 14 seed) ++ (":00").toList
      else if kwEvening (lowerStr text) then
        fmt02 (pyRandint 18 21 seed) ++ (":00").toList
      else
        fmt02 (pyRandint 10 17 seed) ++ (":00").toList) := by
    rw [extractTime, h1, h2]
  refine ⟨?_, ?_, ?_, ?_⟩
  · intro hc
    rw [hval, if_pos hc, timeHourVal_fmt02 _ _ (by unfold pyRandint; omega)]
    unfold pyRandint; omega
  · intro hc0 hc
    rw [hval, if_neg (by rw [hc0]; exact Bool.false_ne_true), if_pos hc,
      timeHourVal_fmt02 _ _ (by unfold pyRandint; omega)]
    unfold pyRandint; omega
  · intro hc0 hc1 hc
    rw [hval, if_neg (by rw [hc0]; exact Bool.false_ne_true),
      if_neg (by rw [hc1]; exact Bool.false_ne_true), if_pos hc,
      timeHourVal_fmt02 _ _ (by unfold pyRandint; omega)]
    unfold pyRandint; omega
  · intro hc0 hc1 hc2
    rw [hval, if_neg (by rw [hc0]; exact Bool.false_ne_true),
      if_neg (by rw [hc1]; exact Bool.false_ne_true),
      if_neg (by rw [hc2]; exact Bool.false_ne_true),
      timeHourVal_fmt02 _ _ (by unfold pyRandint; omega)]
    unfold pyRandint; omega

/-- Witness for C7 (amended): the morning branch at the concrete text. -/
theorem claim_C7_default_time_ranges_witness :
    findPattern1 c7Text = none ∧ findPattern2 c7Text = none ∧
    kwMorning (lowerStr c7Text) = true ∧
    (8 ≤ timeHourVal (extractTime c7Text 0) ∧
      timeHourVal (extractTime c7Text 0) ≤ 11) :=
  ⟨by decide, by decide, by decide,
    (claim_C7_default_time_ranges c7Text 0 (by decide) (by decide)).1 (by decide)⟩

/-! ### C5: the recurring-pattern expander -/

theorem daysFromCivil_day (y m d : Nat) (hd : 1 ≤ d) :
    daysFromCivil ⟨y, m, d⟩ = daysFromCivil ⟨y, m, 1⟩ + (d - 1) := by
  simp only [daysFromCivil]
  split_ifs <;> omega

theorem pyWeekday_lt (dt : Date) : pyWeekday dt < 7 := by
  unfold pyWeekday; omega

theorem pyWeekday_day (y m d : Nat) (hd : 1 ≤ d) :
    pyWeekday ⟨y, m, d⟩ = (pyWeekday ⟨y, m, 1⟩ + (d - 1)) % 7 := by
  unfold pyWeekday
  rw [daysFromCivil_day y m d hd]
  omega

/-- The date the expander computes really is the n-th weekday-`w`
occurrence of its month: it keeps the year and month, its day lies in the
n-th week (so together with the weekday it is exactly the n-th such
weekday on or after the 1st), and it falls on weekday `w`. -/
theorem nthWeekdayDate_correct (y m w n : Nat) (hw : w < 7) (hn : 1 ≤ n) :
    (nthWeekdayDate y m w n).year = y ∧
    (nthWeekdayDate y m w n).month = m ∧
    7 * (n - 1) + 1 ≤ (nthWeekdayDate y m w n).day ∧
    (nthWeekdayDate y m w n).day ≤ 7 * n ∧
    pyWeekday (nthWeekdayDate y m w n) = w := by
  have hk0 : 0 ≤ ((w : Int) - pyWeekday ⟨y, m, 1⟩) % 7 :=
    Int.emod_nonneg _ (by norm_num)
  have hk7 : ((w : Int) - pyWeekday ⟨y, m, 1⟩) % 7 < 7 :=
    Int.emod_lt_of_pos _ (by norm_num)
  have hwd : pyWeekday ⟨y, m, 1⟩ < 7 := pyWeekday_lt _
  have hday : (nthWeekdayDate y m w n).day =
      1 + (((w : Int) - pyWeekday ⟨y, m, 1⟩) % 7).toNat + 7 * (n - 1) := rfl
  refine ⟨rfl, rfl, by rw [hday]; omega, by rw [hday]; omega, ?_⟩
  have heq : nthWeekdayDate y m w n =
      (⟨y, m, 1 + (((w : Int) - pyWeekday ⟨y, m, 1⟩) % 7).toNat + 7 * (n - 1)⟩ : Date) :=
    rfl
  rw [heq, pyWeekday_day y m _ (by omega)]
  omega

/-- The six loop iterations run over six consecutive calendar months
starting at the current one. -/
theorem monthAdd_correct (current : Date) (i : Nat) (h1 : 1 ≤ current.month)
    (h2 : current.month ≤ 12) :
    (monthAdd current i).1 * 12 + ((monthAdd current i).2 - 1) =
      current.year * 12 + (current.month - 1) + i ∧
    1 ≤ (monthAdd current i).2 ∧ (monthAdd current i).2 ≤ 12 := by
  simp only [monthAdd]
  refine ⟨?_, ?_, ?_⟩ <;> omega

theorem subIn_of_mem (c : Char) (s : List Char) (h : c ∈ s) :
    subIn [c] s = true := by
  unfold subIn
  rw [List.any_eq_true]
  obtain ⟨s1, t1, rfl⟩ := List.append_of_mem h
  refine ⟨c :: t1, ?_, ?_⟩
  · rw [List.mem_tails]
    exact ⟨s1, rfl⟩
  · simp [List.isPrefixOf]

theorem splitOnC_ne_nil (sep : Char) (l : List Char) : splitOnC sep l ≠ [] := by
  cases l with
  | nil => simp [splitOnC]
  | cons c t =>
    rw [splitOnC]
    rcases splitOnC sep t with _ | ⟨x, r⟩
    · simp
    · dsimp only
      split_ifs <;> simp

theorem splitOnC_not_mem (sep : Char) (l : List Char) (h : sep ∉ l) :
    splitOnC sep l = [l] := by
  induction l with
  | nil => rfl
  | cons c t ih =>
    have ht : sep ∉ t := fun hm => h (List.mem_cons_of_mem c hm)
    have hc : (c == sep) = false := by
      have hne : c ≠ sep := fun he => h (by simp [he])
      simp [hne]
    rw [splitOnC, ih ht]
    simp [hc]

theorem splitOnC_append (sep : Char) (dpart tpart : List Char)
    (h : sep ∉ dpart) :
    splitOnC sep (dpart ++ sep :: tpart) = dpart :: splitOnC sep tpart := by
  induction dpart with
  | nil =>
    rw [List.nil_append, splitOnC]
    rcases hs : splitOnC sep tpart with _ | ⟨x, r⟩
    · exact absurd hs (splitOnC_ne_nil sep tpart)
    · simp
  | cons c d ih =>
    have hcd : sep ∉ d := fun hm => h (List.mem_cons_of_mem c hm)
    have hc : (c == sep) = false := by
      have hne : c ≠ sep := fun he => h (by simp [he])
      simp [hne]
    rw [List.cons_append, splitOnC, ih hcd]
    simp [hc]

/-- The expander preserves the seed's time of day: on a well-shaped
`start` the overwritten date keeps the original `HH:MM:SS` tail. -/
theorem seedTime_append (dpart tpart : List Char) (hd : 'T' ∉ dpart)
    (ht : 'T' ∉ tpart) : seedTime (dpart ++ 'T' :: tpart) = tpart := by
  rw [seedTime,
    if_pos (subIn_of_mem 'T' _ (by simp)),
    splitOnC_append 'T' dpart tpart hd, splitOnC_not_mem 'T' tpart ht]
  rfl

theorem expandOne_no_match (current : Date) (e : Entry)
    (h1 : matchesFirstFriday (searchText e) = false)
    (h2 : matchesSecondSaturday (searchText e) = false)
    (h3 : matchesThirdTuesday (searchText e) = false) :
    expandOne current e = [e] := by
  rw [expandOne, if_neg (by rw [h1]; exact Bool.false_ne_true),
    if_neg (by rw [h2]; exact Bool.false_ne_true),
    if_neg (by rw [h3]; exact Bool.false_ne_true)]

/-- C5: the recurring expander.  (i) Entries matching none of the three
phrase groups pass through unchanged, and the pass maps each entry to its
own expansion in order.  (ii) For an entry matching one group (under the
`elif` precedence), the output is one candidate per loop month `i < 6` —
the n-th weekday-`w` date of that month — kept exactly when it is on or
after the current date, each a copy of the seed with only `start`
overwritten.  (iii) That computed date keeps its month, lies in the n-th
week and falls on weekday `w` (first Friday: w = 4, n = 1; second
Saturday: w = 5, n = 2; third Tuesday: w = 1, n = 3).  (iv) The loop
months are the six consecutive calendar months from the current one.
(v) On a well-shaped seed `start` the time of day is preserved. -/
theorem claim_C5_recurring_expansion :
    (∀ (current : Date) (e : Entry),
      matchesFirstFriday (searchText e) = false →
      matchesSecondSaturday (searchText e) = false →
      matchesThirdTuesday (searchText e) = false →
      expandOne current e = [e]) ∧
    (∀ (current : Date) (l : List Entry),
      expandRecurringEvents current l = l.flatMap (expandOne current)) ∧
    (∀ (current : Date) (e : Entry) (w n : Nat),
      (matchesFirstFriday (searchText e) = true ∧ w = 4 ∧ n = 1) ∨
      (matchesFirstFriday (searchText e) = false ∧
        matchesSecondSaturday (searchText e) = true ∧ w = 5 ∧ n = 2) ∨
      (matchesFirstFriday (searchText e) = false ∧
        matchesSecondSaturday (searchText e) = false ∧
        matchesThirdTuesday (searchText e) = true ∧ w = 1 ∧ n = 3) →
      expandOne current e = (List.range 6).filterMap (fun i =>
        let ym := monthAdd current i
        let d := nthWeekdayDate ym.1 ym.2 w n
        if dateLe current d then
          some { e with start := fmtDate d ++ 'T' :: seedTime e.start }
        else none)) ∧
    (∀ (y m w n : Nat), w < 7 → 1 ≤ n →
      (nthWeekdayDate y m w n).year = y ∧
      (nthWeekdayDate y m w n).month = m ∧
      7 * (n - 1) + 1 ≤ (nthWeekdayDate y m w n).day ∧
      (nthWeekdayDate y m w n).day ≤ 7 * n ∧
      pyWeekday (nthWeekdayDate y m w n) = w) ∧
    (∀ (current : Date) (i : Nat), 1 ≤ current.month → current.month ≤ 12 →
      (monthAdd current i).1 * 12 + ((monthAdd current i).2 - 1) =
        current.year * 12 + (current.month - 1) + i ∧
      1 ≤ (monthAdd current i).2 ∧ (monthAdd current i).2 ≤ 12) ∧
    (∀ (dpart tpart : List Char), 'T' ∉ dpart → 'T' ∉ tpart →
      seedTime (dpart ++ 'T' :: tpart) = tpart) := by
  refine ⟨expandOne_no_match, fun current l => rfl, ?_,
    nthWeekdayDate_correct, monthAdd_correct, seedTime_append⟩
  intro current e w n h
  rcases h with ⟨h1, hw, hn⟩ | ⟨h1, h2, hw, hn⟩ | ⟨h1, h2, h3, hw, hn⟩ <;>
    subst hw <;> subst hn
  · rw [expandOne, if_pos h1]; rfl
  · rw [expandOne, if_neg (by rw [h1]; exact Bool.false_ne_true), if_pos h2]
    rfl
  · rw [expandOne, if_neg (by rw [h1]; exact Bool.false_ne_true),
      if_neg (by rw [h2]; exact Bool.false_ne_true), if_pos h3]
    rfl

/-- Witness for C5: the first-Friday seed at run date 2026-02-06, plus the
date and time facts at concrete inputs. -/
theorem claim_C5_recurring_expansion_witness :
    matchesFirstFriday (searchText c5Seed) = true ∧
    expandOne ⟨2026, 2, 6⟩ c5Seed = (List.range 6).filterMap (fun i =>
      let ym := monthAdd (⟨2026, 2, 6⟩ : Date) i
      let d := nthWeekdayDate ym.1 ym.2 4 1
      if dateLe ⟨2026, 2, 6⟩ d then
        some { c5Seed with start := fmtDate d ++ 'T' :: seedTime c5Seed.start }
      else none) ∧
    pyWeekday (nthWeekdayDate 2026 2 4 1) = 4 ∧
    seedTime (("2026-02-06").toList ++ 'T' :: ("18:30:00").toList) =
      ("18:30:00").toList :=
  ⟨by decide,
   claim_C5_recurring_expansion.2.2.1 ⟨2026, 2, 6⟩ c5Seed 4 1
     (Or.inl ⟨by decide, rfl, rfl⟩),
   (claim_C5_recurring_expansion.2.2.2.1 2026 2 4 1 (by decide)
     (by decide)).2.2.2.2,
   claim_C5_recurring_expansion.2.2.2.2.2 (("2026-02-06").toList)
     (("18:30:00").toList) (by decide) (by decide)⟩

end Valdosta
